import Mathlib

/-!
A shallow embedding of the shopping-cart pricing core of `cart-prototype`:
the composite pricing tree (`Product` / `Bundle` in
`src/composite/cart-components.ts`), the `Cart` orchestrator
(`src/models/interfaces.ts`) and the four price-modification strategies
(`src/strategies/price-strategies.ts`).

Modelling choices: JavaScript numbers are modelled as exact rationals;
the wall clock read by the birthday checks (`new Date()`) is passed in
explicitly as a `SimpleDate`; JavaScript object identity (`===`, used by
`Array.prototype.indexOf`) is modelled as structural equality; optional
boolean fields default to `false` and the optional `birthday` is an
`Option`. Definitions whose names start with `spec` restate the
specification's wording and are compared against the source-derived
definitions in the theorems below.
-/

/-- Month and day of a date, the `Date.getMonth` / `Date.getDate` projections
(the year is never inspected by the source). -/
structure SimpleDate where
  month : ℕ
  day : ℕ
deriving DecidableEq

/-- The `CartItem` record of `models/interfaces.ts`. -/
structure CartItem where
  id : String
  name : String
  price : ℚ
  quantity : ℚ
  isSaleItem : Bool
  isEligibleForBonus : Bool
deriving DecidableEq

/-- The `Customer` record of `models/interfaces.ts`. -/
structure Customer where
  id : String
  email : String
  isNewCustomer : Bool
  birthday : Option SimpleDate
  bonusPoints : ℚ
deriving DecidableEq

/-- The `PriceContext` record handed to each strategy. -/
structure PriceContext where
  customer : Customer
  cartItems : List CartItem
  intermediateAmount : ℚ
deriving DecidableEq

mutual
/-- The composite pattern of `cart-components.ts`: `Product` is the leaf
wrapping one `CartItem`, `Bundle` owns a child sequence, a multiplier
quantity and a bundle discount. -/
inductive CartComponent where
  | product (item : CartItem) : CartComponent
  | bundle (name : String) (quantity : ℚ) (bundleDiscount : ℚ)
      (components : CompList) : CartComponent
deriving DecidableEq

/-- The ordered child sequence owned by a `Bundle`. -/
inductive CompList where
  | nil : CompList
  | cons (head : CartComponent) (tail : CompList) : CompList
deriving DecidableEq
end

/-- View of a child sequence as an ordinary list. -/
def CompList.toList : CompList → List CartComponent
  | .nil => []
  | .cons c cs => c :: cs.toList

mutual
/-- `Product.getPrice` (price times quantity) and `Bundle.getPrice`
(sum the children, apply the discount only when it is strictly positive,
multiply by the bundle quantity). -/
def CartComponent.getPrice : CartComponent → ℚ
  | .product item => item.price * item.quantity
  | .bundle _ quantity bundleDiscount components =>
      (if bundleDiscount > 0 then components.sumPrices * (1 - bundleDiscount)
       else components.sumPrices) * quantity

/-- The summation loop over the children inside `Bundle.getPrice`. -/
def CompList.sumPrices : CompList → ℚ
  | .nil => 0
  | .cons c cs => c.getPrice + cs.sumPrices
end

mutual
/-- Items contributed by one component: a `Product` contributes its item,
a `Bundle` its `getAllItems`. -/
def CartComponent.getAllItems : CartComponent → List CartItem
  | .product item => [item]
  | .bundle _ _ _ components => components.allItems

/-- The collection loop of `Bundle.getAllItems`. -/
def CompList.allItems : CompList → List CartItem
  | .nil => []
  | .cons c cs => c.getAllItems ++ cs.allItems
end

/-- `Array.prototype.indexOf` on a child sequence: index of the first equal
element, `none` when absent. -/
def CompList.idxOf? : CompList → CartComponent → Option ℕ
  | .nil, _ => none
  | .cons h t, c => if h = c then some 0 else (t.idxOf? c).map (· + 1)

/-- `Array.prototype.splice(i, 1)` on a child sequence. -/
def CompList.spliceAt : CompList → ℕ → CompList
  | .nil, _ => .nil
  | .cons _ t, 0 => t
  | .cons h t, n + 1 => .cons h (t.spliceAt n)

/-- `Bundle.remove` acting on the bundle's component sequence: look up the
index with `indexOf` and splice it out when found. -/
def CompList.removeComp (comps : CompList) (c : CartComponent) : CompList :=
  match comps.idxOf? c with
  | none => comps
  | some i => comps.spliceAt i

/-- `Array.prototype.indexOf` on the cart's top-level component list. -/
def listIdxOf? (c : CartComponent) : List CartComponent → Option ℕ
  | [] => none
  | h :: t => if h = c then some 0 else (listIdxOf? c t).map (· + 1)

/-- Configuration constant of `NewCustomerDiscountStrategy` (5 percent). -/
def newCustomerDiscountPercentage : ℚ := 5 / 100

/-- Configuration constant of `NewCustomerDiscountStrategy` (100 CHF cap). -/
def newCustomerMaxDiscount : ℚ := 100

/-- `NewCustomerDiscountStrategy.apply`. -/
def newCustomerApply (amount : ℚ) (context : PriceContext) : ℚ :=
  if !context.customer.isNewCustomer then amount
  else if context.cartItems.any (fun item => item.isSaleItem) then amount
  else amount - min (amount * newCustomerDiscountPercentage) newCustomerMaxDiscount

/-- Configuration constant of `BirthdayDiscountStrategy` (3 percent). -/
def birthdayDiscountPercentage : ℚ := 3 / 100

/-- The `isBirthday` helper: month and day equality against today's date. -/
def isBirthday (today birthday : SimpleDate) : Bool :=
  birthday.month == today.month && birthday.day == today.day

/-- `BirthdayDiscountStrategy.apply`; `today` models the `new Date()` read. -/
def birthdayApply (today : SimpleDate) (amount : ℚ) (context : PriceContext) : ℚ :=
  match context.customer.birthday with
  | none => amount
  | some b =>
      if !isBirthday today b then amount
      else if context.customer.isNewCustomer then amount
      else if context.cartItems.any (fun item => item.isSaleItem) then amount
      else amount - amount * birthdayDiscountPercentage

/-- Configuration constant of `VATStrategy` (7.7 percent). -/
def vatRate : ℚ := 77 / 1000

/-- `VATStrategy.apply`. -/
def vatApply (amount : ℚ) (_context : PriceContext) : ℚ :=
  amount * (1 + vatRate)

/-- One entry of `VolumeDiscountStrategy.discountTiers`. -/
structure DiscountTier where
  minQuantity : ℚ
  discountPercentage : ℚ

/-- The tier table, in ascending threshold order as in the source. -/
def discountTiers : List DiscountTier :=
  [⟨10, 5 / 100⟩, ⟨20, 10 / 100⟩, ⟨50, 20 / 100⟩]

/-- `VolumeDiscountStrategy.getDiscountForQuantity`: iterate the tiers and
keep the last qualifying one. -/
def getDiscountForQuantity (quantity : ℚ) : ℚ :=
  discountTiers.foldl
    (fun acc tier => if quantity ≥ tier.minQuantity then tier.discountPercentage else acc) 0

/-- Key sequence of the `Map` built by `VolumeDiscountStrategy.apply`:
the distinct item ids in first-occurrence order. -/
def distinctIds (items : List CartItem) : List String :=
  items.foldl (fun acc item => if acc.contains item.id then acc else acc ++ [item.id]) []

/-- Value stored under `id` in that `Map`: the quantities of all items
carrying `id`, summed across the whole list. -/
def summedQuantity (items : List CartItem) (id : String) : ℚ :=
  items.foldl (fun q item => if item.id == id then q + item.quantity else q) 0

/-- `VolumeDiscountStrategy.apply`. -/
def volumeApply (amount : ℚ) (context : PriceContext) : ℚ :=
  let totalDiscount :=
    (distinctIds context.cartItems).foldl (fun td id =>
      match context.cartItems.find? (fun i => i.id == id) with
      | none => td
      | some item =>
          let quantity := summedQuantity context.cartItems id
          let applicableDiscount := getDiscountForQuantity quantity
          if applicableDiscount > 0 then td + item.price * quantity * applicableDiscount
          else td) 0
  amount - totalDiscount

/-- The reference strategy set registered with a cart. -/
inductive PriceStrategy where
  | newCustomerDiscount
  | birthdayDiscount
  | vat
  | volumeDiscount
deriving DecidableEq

/-- Dispatch of `PriceModificationStrategy.apply` over the reference set;
the `SimpleDate` argument models the wall clock that
`BirthdayDiscountStrategy` reads via `new Date()`. -/
def PriceStrategy.apply : PriceStrategy → SimpleDate → ℚ → PriceContext → ℚ
  | .newCustomerDiscount, _, amount, context => newCustomerApply amount context
  | .birthdayDiscount, today, amount, context => birthdayApply today amount context
  | .vat, _, amount, context => vatApply amount context
  | .volumeDiscount, _, amount, context => volumeApply amount context

/-- The `Cart` orchestrator: a customer, the top-level components and the
registered strategies in registration order. -/
structure Cart where
  customer : Customer
  components : List CartComponent
  priceStrategies : List PriceStrategy

/-- `Cart.removeComponent`: `indexOf` then `splice(index, 1)` when found. -/
def Cart.removeComponent (cart : Cart) (c : CartComponent) : Cart :=
  match listIdxOf? c cart.components with
  | none => cart
  | some i => { cart with components := cart.components.eraseIdx i }

/-- `Cart.getSubtotal`: reduce the top-level components' prices from 0. -/
def Cart.getSubtotal (cart : Cart) : ℚ :=
  cart.components.foldl (fun total component => total + component.getPrice) 0

/-- `Cart.getAllCartItems`: concatenate every component's items. -/
def Cart.getAllCartItems (cart : Cart) : List CartItem :=
  cart.components.foldl (fun items component => items ++ component.getAllItems) []

/-- JavaScript `Math.round`: half-integers round toward positive infinity. -/
def mathRound (x : ℚ) : ℤ := ⌊x + 1 / 2⌋

/-- The final rounding step `Math.round(x * 100) / 100`. -/
def roundTo2 (x : ℚ) : ℚ := (mathRound (x * 100) : ℚ) / 100

/-- `Cart.calculateTotal`: start from the subtotal, capture the flattened
item list once, fold the strategies in registration order rebuilding the
context with the running amount, round once at the end. -/
def Cart.calculateTotal (cart : Cart) (today : SimpleDate) : ℚ :=
  let allItems := cart.getAllCartItems
  let finalAmount := cart.priceStrategies.foldl
    (fun currentAmount strategy =>
      strategy.apply today currentAmount ⟨cart.customer, allItems, currentAmount⟩)
    cart.getSubtotal
  roundTo2 finalAmount

/-- `Cart.calculateBonusPoints`: floor of price times quantity over the
bonus-eligible flattened items, times ten on the customer's birthday. -/
def Cart.calculateBonusPoints (cart : Cart) (today : SimpleDate) : ℤ :=
  let allItems := cart.getAllCartItems
  let bonusPoints := allItems.foldl
    (fun bp item =>
      if item.isEligibleForBonus then bp + ⌊item.price * item.quantity⌋ else bp) 0
  match cart.customer.birthday with
  | some b => if isBirthday today b then bonusPoints * 10 else bonusPoints
  | none => bonusPoints

mutual
/-- Data-model constraints of the specification on a node: item prices are
nonnegative, item quantities at least 1, bundle quantities at least 1 and
bundle discount fractions in the interval from 0 inclusive to 1 exclusive. -/
def CartComponent.validNode : CartComponent → Prop
  | .product item => 0 ≤ item.price ∧ 1 ≤ item.quantity
  | .bundle _ quantity bundleDiscount components =>
      1 ≤ quantity ∧ 0 ≤ bundleDiscount ∧ bundleDiscount < 1 ∧ components.validAll

/-- The data-model constraints, over a child sequence. -/
def CompList.validAll : CompList → Prop
  | .nil => True
  | .cons c cs => c.validNode ∧ cs.validAll
end

/-- Restatement of the specification's rounding wording: round half away
from zero on the cent boundary. -/
def specRoundHalfAwayFromZero2 (x : ℚ) : ℚ :=
  if 0 ≤ x then (⌊x * 100 + 1 / 2⌋ : ℚ) / 100
  else -((⌊-x * 100 + 1 / 2⌋ : ℚ) / 100)

/-- Restatement of the specification's tier choice: the highest tier whose
minimum quantity the summed quantity meets or exceeds. -/
def specTier (q : ℚ) : ℚ :=
  if q ≥ 50 then 20 / 100
  else if q ≥ 20 then 10 / 100
  else if q ≥ 10 then 5 / 100
  else 0

/-- Restatement of the specification's pipeline wording: fold the rules in
registration order over the unrounded subtotal, every rule seeing the
running amount and the item list captured once, rounding once at the end. -/
def specPipelineTotal (cart : Cart) (today : SimpleDate) : ℚ :=
  let capturedItems := cart.getAllCartItems
  roundTo2 (cart.priceStrategies.foldl
    (fun running rule => rule.apply today running ⟨cart.customer, capturedItems, running⟩)
    cart.getSubtotal)

/-- Restatement of the specification's per-id volume discount: price of the
first item with the id, times summed quantity, times the highest tier. -/
def specVolumeDiscountOfId (items : List CartItem) (id : String) : ℚ :=
  match items.find? (fun i => i.id == id) with
  | none => 0
  | some item => item.price * summedQuantity items id * specTier (summedQuantity items id)

/-- Fixture: a cart that is valid under the data model yet reaches a
negative pre-rounding amount: a bundle with discount 0.80001 over one item
of price 10 and quantity 50, with the volume discount registered. -/
def c4NegCart : Cart :=
  { customer := ⟨"c4n", "c4n@example.com", false, none, 0⟩,
    components := [CartComponent.bundle "B" 1 (80001 / 100000)
      (CompList.cons (CartComponent.product ⟨"a", "Gadget", 10, 50, false, false⟩)
        CompList.nil)],
    priceStrategies := [PriceStrategy.volumeDiscount] }

/-- Fixture: the specification's rounding example: a new customer, one
non-sale item of price 100, NewCustomerDiscount then VAT. -/
def c4ExampleCart : Cart :=
  { customer := ⟨"c4e", "c4e@example.com", true, none, 0⟩,
    components := [CartComponent.product ⟨"p", "Primo", 100, 1, false, false⟩],
    priceStrategies := [PriceStrategy.newCustomerDiscount, PriceStrategy.vat] }

/-- Fixture: a returning customer with a birthday on May 17 and one
non-sale item, used to separate two invocation dates. -/
def c6Context : PriceContext :=
  { customer := ⟨"c6", "c6@example.com", false, some ⟨5, 17⟩, 0⟩,
    cartItems := [⟨"i6", "Item6", 10, 1, false, false⟩],
    intermediateAmount := 100 }

theorem foldl_add_sum {α M : Type*} [AddCommMonoid M] (f : α → M) :
    ∀ (l : List α) (init : M), l.foldl (fun a x => a + f x) init = init + (l.map f).sum
  | [], init => by simp
  | x :: xs, init => by
      simp only [List.foldl_cons, List.map_cons, List.sum_cons, foldl_add_sum f xs, add_assoc]

theorem CompList.sumPrices_eq_toList :
    ∀ cs : CompList, cs.sumPrices = (cs.toList.map CartComponent.getPrice).sum
  | .nil => by simp [CompList.sumPrices, CompList.toList]
  | .cons c cs => by
      simp [CompList.sumPrices, CompList.toList, CompList.sumPrices_eq_toList cs]

theorem getDiscountForQuantity_eq_specTier (q : ℚ) :
    getDiscountForQuantity q = specTier q := by
  simp only [getDiscountForQuantity, discountTiers, List.foldl, specTier]

theorem listIdxOf?_eq_none_of_not_mem {c : CartComponent} :
    ∀ {l : List CartComponent}, c ∉ l → listIdxOf? c l = none := by
  intro l
  induction l with
  | nil => intro _; rfl
  | cons h t ih =>
      intro hmem
      simp only [List.mem_cons, not_or] at hmem
      simp only [listIdxOf?]
      rw [if_neg (fun hh => hmem.1 hh.symm), ih hmem.2]
      rfl

theorem listIdxOf?_splice_of_mem {c : CartComponent} :
    ∀ {l : List CartComponent}, c ∈ l →
      ∃ i l1 l2, listIdxOf? c l = some i ∧ l = l1 ++ c :: l2 ∧ c ∉ l1 ∧
        l.eraseIdx i = l1 ++ l2 := by
  intro l
  induction l with
  | nil => intro h; cases h
  | cons h t ih =>
      intro hmem
      by_cases heq : h = c
      · subst heq
        exact ⟨0, [], t, by simp [listIdxOf?], rfl, by simp, rfl⟩
      · have hct : c ∈ t := by
          rcases List.mem_cons.mp hmem with h1 | h2
          · exact absurd h1.symm heq
          · exact h2
        obtain ⟨i, l1, l2, hidx, hl, hnot, hres⟩ := ih hct
        refine ⟨i + 1, h :: l1, l2, ?_, ?_, ?_, ?_⟩
        · simp only [listIdxOf?, if_neg heq, hidx]
          rfl
        · simp [hl]
        · simp only [List.mem_cons, not_or]
          exact ⟨fun hh => heq hh.symm, hnot⟩
        · simp [List.eraseIdx_cons_succ, hres]

theorem CompList.idxOf?_eq_none_of_not_mem {c : CartComponent} :
    ∀ {cs : CompList}, c ∉ cs.toList → cs.idxOf? c = none
  | .nil, _ => rfl
  | .cons h t, hmem => by
      simp only [CompList.toList, List.mem_cons, not_or] at hmem
      simp only [CompList.idxOf?]
      rw [if_neg (fun hh => hmem.1 hh.symm),
        CompList.idxOf?_eq_none_of_not_mem hmem.2]
      rfl

theorem CompList.idxOf?_splice_of_mem {c : CartComponent} :
    ∀ {cs : CompList}, c ∈ cs.toList →
      ∃ i l1 l2, cs.idxOf? c = some i ∧ cs.toList = l1 ++ c :: l2 ∧ c ∉ l1 ∧
        (cs.spliceAt i).toList = l1 ++ l2
  | .nil, hmem => absurd hmem (by simp [CompList.toList])
  | .cons h t, hmem => by
      by_cases heq : h = c
      · subst heq
        exact ⟨0, [], t.toList, by simp [CompList.idxOf?], rfl, by simp,
          by simp [CompList.spliceAt]⟩
      · have hct : c ∈ t.toList := by
          simp only [CompList.toList, List.mem_cons] at hmem
          rcases hmem with h1 | h2
          · exact absurd h1.symm heq
          · exact h2
        obtain ⟨i, l1, l2, hidx, hl, hnot, hres⟩ := CompList.idxOf?_splice_of_mem hct
        refine ⟨i + 1, h :: l1, l2, ?_, ?_, ?_, ?_⟩
        · simp only [CompList.idxOf?, if_neg heq, hidx]
          rfl
        · simp [CompList.toList, hl]
        · simp only [List.mem_cons, not_or]
          exact ⟨fun hh => heq hh.symm, hnot⟩
        · simp [CompList.spliceAt, CompList.toList, hres]

mutual
theorem CartComponent.getPrice_nonneg :
    ∀ c : CartComponent, c.validNode → 0 ≤ c.getPrice
  | .product item, h => by
      simp only [CartComponent.validNode] at h
      simp only [CartComponent.getPrice]
      exact mul_nonneg h.1 (le_trans zero_le_one h.2)
  | .bundle n q d comps, h => by
      simp only [CartComponent.validNode] at h
      have hs := CompList.sumPrices_nonneg comps h.2.2.2
      have hq : (0 : ℚ) ≤ q := le_trans zero_le_one h.1
      have hd : (0 : ℚ) ≤ 1 - d := by linarith [h.2.2.1]
      simp only [CartComponent.getPrice]
      split_ifs with hpos
      · exact mul_nonneg (mul_nonneg hs hd) hq
      · exact mul_nonneg hs hq

theorem CompList.sumPrices_nonneg :
    ∀ cs : CompList, cs.validAll → 0 ≤ cs.sumPrices
  | .nil, _ => le_refl 0
  | .cons c cs, h => by
      simp only [CompList.validAll] at h
      have h1 := CartComponent.getPrice_nonneg c h.1
      have h2 := CompList.sumPrices_nonneg cs h.2
      simp only [CompList.sumPrices]
      linarith
end

theorem specTier_cases (q : ℚ) : specTier q = 0 ∨ 0 < specTier q := by
  simp only [specTier]
  split_ifs <;> norm_num

/-- C1: the aggregate value of every node matches the recursive reference
definition: a leaf yields unit price times quantity; a group whose
discount is within the data model's range, with multiplier quantity q and
child sequence cs, yields the sum of the children's aggregate values times
(1 - discount) times q; a group with zero children yields 0. -/
theorem claim_C1_aggregate_value :
    (∀ item : CartItem,
      (CartComponent.product item).getPrice = item.price * item.quantity)
    ∧ (∀ (n : String) (q d : ℚ) (comps : CompList), 0 ≤ d → d < 1 →
        (CartComponent.bundle n q d comps).getPrice
          = (comps.toList.map CartComponent.getPrice).sum * (1 - d) * q)
    ∧ (∀ (n : String) (q d : ℚ),
        (CartComponent.bundle n q d CompList.nil).getPrice = 0) := by
  refine ⟨fun item => by simp [CartComponent.getPrice], ?_, ?_⟩
  · intro n q d comps hd0 hd1
    simp only [CartComponent.getPrice, CompList.sumPrices_eq_toList]
    split_ifs with hpos
    · ring
    · have hd : d = 0 := le_antisymm (not_lt.mp hpos) hd0
      rw [hd]
      ring
  · intro n q d
    simp only [CartComponent.getPrice, CompList.sumPrices]
    split_ifs <;> ring

theorem claim_C1_witness :
    (CartComponent.bundle "g" 2 (1 / 10)
        (CompList.cons (CartComponent.product ⟨"a", "Apple", 3, 4, false, false⟩)
          CompList.nil)).getPrice
      = ((CompList.cons (CartComponent.product ⟨"a", "Apple", 3, 4, false, false⟩)
          CompList.nil).toList.map CartComponent.getPrice).sum * (1 - 1 / 10) * 2 :=
  claim_C1_aggregate_value.2.1 "g" 2 (1 / 10) _ (by norm_num) (by norm_num)

/-- C10: a bundle constructed with a negative discount fraction prices
exactly as if the discount were 0: it returns the children's sum times the
bundle quantity, the same value as the identical bundle with discount 0;
construction and pricing are total, no rejection occurs. -/
theorem claim_C10_negative_discount (n : String) (q d : ℚ) (comps : CompList)
    (hd : d < 0) :
    (CartComponent.bundle n q d comps).getPrice = comps.sumPrices * q
    ∧ (CartComponent.bundle n q d comps).getPrice
        = (CartComponent.bundle n q 0 comps).getPrice := by
  have hnot : ¬d > 0 := by linarith
  constructor
  · simp [CartComponent.getPrice, hnot]
  · simp [CartComponent.getPrice, hnot]

theorem claim_C10_witness :
    (CartComponent.bundle "g" 3 (-(1 / 2)) CompList.nil).getPrice
      = CompList.nil.sumPrices * 3 :=
  (claim_C10_negative_discount "g" 3 (-(1 / 2)) CompList.nil (by norm_num)).1

/-- C9: under the data model's constraints (item prices nonnegative, item
quantities and bundle quantities at least 1, bundle discount fractions in
the interval from 0 inclusive to 1 exclusive) every node's aggregate value
is nonnegative, and hence the cart subtotal over such nodes is
nonnegative. -/
theorem claim_C9_nonneg :
    (∀ c : CartComponent, c.validNode → 0 ≤ c.getPrice)
    ∧ (∀ cart : Cart, (∀ c ∈ cart.components, c.validNode) → 0 ≤ cart.getSubtotal) := by
  refine ⟨CartComponent.getPrice_nonneg, ?_⟩
  intro cart h
  have hfold : cart.components.foldl (fun total component => total + component.getPrice) 0
      = 0 + (cart.components.map (fun c => c.getPrice)).sum :=
    foldl_add_sum _ _ _
  rw [Cart.getSubtotal, hfold, zero_add]
  refine List.sum_nonneg ?_
  intro x hx
  obtain ⟨c, hc, rfl⟩ := List.mem_map.mp hx
  exact CartComponent.getPrice_nonneg c (h c hc)

theorem claim_C9_witness :
    0 ≤ (CartComponent.product ⟨"w9", "Widget", 5, 2, false, false⟩).getPrice :=
  claim_C9_nonneg.1 _ (by simp [CartComponent.validNode])

/-- C2: calculateTotal equals the left-to-right fold of the registered
rules, in registration order, starting from the unrounded subtotal, each
rule receiving the current running amount and the flattened item list
captured once before the fold, with rounding to 2 decimal places applied
exactly once after the last rule; with zero rules the total is the rounded
subtotal. -/
theorem claim_C2_pipeline (cart : Cart) (today : SimpleDate) :
    cart.calculateTotal today = specPipelineTotal cart today
    ∧ (cart.priceStrategies = [] →
        cart.calculateTotal today = roundTo2 cart.getSubtotal) := by
  constructor
  · rfl
  · intro h
    simp [Cart.calculateTotal, h]

theorem claim_C2_witness :
    Cart.calculateTotal
        { customer := ⟨"c2", "c2@example.com", false, none, 0⟩,
          components := [CartComponent.product ⟨"p2", "Pen", 100, 1, false, false⟩],
          priceStrategies := [] } ⟨1, 1⟩
      = roundTo2 (Cart.getSubtotal
          { customer := ⟨"c2", "c2@example.com", false, none, 0⟩,
            components := [CartComponent.product ⟨"p2", "Pen", 100, 1, false, false⟩],
            priceStrategies := [] }) :=
  (claim_C2_pipeline _ _).2 rfl

/-- C5: NewCustomerDiscountStrategy.apply returns the amount unchanged when
the customer is not new, returns it unchanged when any item of the
context's item list is a sale item (an all-or-nothing gate over the whole
cart), and otherwise subtracts min(amount * 0.05, 100). -/
theorem claim_C5_new_customer (amount : ℚ) (context : PriceContext) :
    (context.customer.isNewCustomer = false → newCustomerApply amount context = amount)
    ∧ ((∃ item ∈ context.cartItems, item.isSaleItem = true) →
        newCustomerApply amount context = amount)
    ∧ (context.customer.isNewCustomer = true →
        (∀ item ∈ context.cartItems, item.isSaleItem = false) →
        newCustomerApply amount context = amount - min (amount * (5 / 100)) 100) := by
  refine ⟨?_, ?_, ?_⟩
  · intro h
    simp [newCustomerApply, h]
  · intro h
    have hany : context.cartItems.any (fun item => item.isSaleItem) = true := by
      obtain ⟨it, hmem, hsale⟩ := h
      exact List.any_eq_true.mpr ⟨it, hmem, hsale⟩
    cases hnew : context.customer.isNewCustomer <;>
      simp [newCustomerApply, hnew, hany]
  · intro hnew hnone
    have hany : context.cartItems.any (fun item => item.isSaleItem) = false := by
      rw [List.any_eq_false]
      intro it hmem
      simp [hnone it hmem]
    simp [newCustomerApply, hnew, hany, newCustomerDiscountPercentage,
      newCustomerMaxDiscount]

theorem claim_C5_witness :
    newCustomerApply 200
        ⟨⟨"c5", "c5@example.com", true, none, 0⟩,
          [⟨"i5", "Item5", 50, 4, false, false⟩], 200⟩
      = 200 - min (200 * (5 / 100)) 100 :=
  (claim_C5_new_customer 200 _).2.2 rfl (by simp)

/-- C6 counterexample: BirthdayDiscountStrategy.apply is not a pure
function of its two arguments: with identical amount and identical
context, invoking it on the customer's birthday returns a different
result than invoking it on another day. -/
theorem claim_C6_counterexample :
    PriceStrategy.birthdayDiscount.apply ⟨5, 17⟩ 100 c6Context
      ≠ PriceStrategy.birthdayDiscount.apply ⟨1, 1⟩ 100 c6Context := by
  simp [PriceStrategy.apply, birthdayApply, c6Context, isBirthday,
    birthdayDiscountPercentage]

/-- C6 amended: every rule in the reference set is a deterministic pure
function of amount, context and the current date, and leaves the context
unchanged; NewCustomerDiscount, VAT and VolumeDiscount are pure functions
of amount and context alone (their result never depends on the date),
while BirthdayDiscount additionally reads the current date. -/
theorem claim_C6_amended (d1 d2 : SimpleDate) (amount : ℚ) (context : PriceContext) :
    PriceStrategy.newCustomerDiscount.apply d1 amount context
      = PriceStrategy.newCustomerDiscount.apply d2 amount context
    ∧ PriceStrategy.vat.apply d1 amount context
      = PriceStrategy.vat.apply d2 amount context
    ∧ PriceStrategy.volumeDiscount.apply d1 amount context
      = PriceStrategy.volumeDiscount.apply d2 amount context :=
  ⟨rfl, rfl, rfl⟩

/-- C7: calculateBonusPoints is independent of the registered strategies
and equals the sum of floor(price * quantity) over the bonus-eligible
items of the flattened item list of every top-level node, multiplied by 10
exactly when the customer's birthday month and day match today's. -/
theorem claim_C7_bonus_points (customer : Customer)
    (components : List CartComponent) (s1 s2 : List PriceStrategy)
    (today : SimpleDate) :
    Cart.calculateBonusPoints ⟨customer, components, s1⟩ today
      = Cart.calculateBonusPoints ⟨customer, components, s2⟩ today
    ∧ Cart.calculateBonusPoints ⟨customer, components, s1⟩ today
      = (match customer.birthday with
          | some b => if isBirthday today b then (10 : ℤ) else 1
          | none => 1)
        * ((Cart.getAllCartItems ⟨customer, components, s1⟩).map
            (fun item =>
              if item.isEligibleForBonus then ⌊item.price * item.quantity⌋
              else (0 : ℤ))).sum := by
  constructor
  · rfl
  · have hfun : (fun (bp : ℤ) (item : CartItem) =>
        if item.isEligibleForBonus then bp + ⌊item.price * item.quantity⌋ else bp)
        = (fun (bp : ℤ) (item : CartItem) =>
            bp + if item.isEligibleForBonus then ⌊item.price * item.quantity⌋ else 0) := by
      funext bp item
      split_ifs <;> simp
    simp only [Cart.calculateBonusPoints, hfun,
      foldl_add_sum (fun item : CartItem =>
        if item.isEligibleForBonus then ⌊item.price * item.quantity⌋ else (0 : ℤ))]
    cases hb : customer.birthday with
    | none => simp
    | some b =>
        cases hbd : isBirthday today b <;> simp [mul_comm]

theorem volumeFold_eq_sum (items : List CartItem) :
    ∀ (ids : List String) (td : ℚ),
      ids.foldl (fun td id =>
        match items.find? (fun i => i.id == id) with
        | none => td
        | some item =>
            let quantity := summedQuantity items id
            let applicableDiscount := getDiscountForQuantity quantity
            if applicableDiscount > 0 then td + item.price * quantity * applicableDiscount
            else td) td
      = td + (ids.map (specVolumeDiscountOfId items)).sum
  | [], td => by simp
  | id :: ids, td => by
      simp only [List.foldl_cons, List.map_cons, List.sum_cons]
      rw [volumeFold_eq_sum items ids]
      have hstep : (match items.find? (fun i => i.id == id) with
          | none => td
          | some item =>
              let quantity := summedQuantity items id
              let applicableDiscount := getDiscountForQuantity quantity
              if applicableDiscount > 0 then td + item.price * quantity * applicableDiscount
              else td)
          = td + specVolumeDiscountOfId items id := by
        simp only [specVolumeDiscountOfId]
        cases hf : items.find? (fun i => i.id == id) with
        | none => simp
        | some item =>
            simp only [getDiscountForQuantity_eq_specTier]
            rcases specTier_cases (summedQuantity items id) with hz | hp
            · rw [hz]
              simp
            · rw [if_pos hp]
      rw [hstep]
      ring

/-- C3: VolumeDiscountStrategy.apply groups the item list by id summing
quantities across the cart, takes for each distinct id the highest tier of
the table (10 gives 5 percent, 20 gives 10 percent, 50 gives 20 percent)
whose minimum quantity the summed quantity meets or exceeds, prices each
id's discount from the first item of the list carrying that id, and
returns the amount minus the sum of the per-id discounts; when no id
reaches summed quantity 10 the amount is returned unchanged; the single-id
example with price 10 and quantity 15 at amount 150 yields 142.5. -/
theorem claim_C3_volume (amount : ℚ) (context : PriceContext) :
    volumeApply amount context
      = amount - ((distinctIds context.cartItems).map
          (specVolumeDiscountOfId context.cartItems)).sum
    ∧ ((∀ id : String, summedQuantity context.cartItems id < 10) →
        volumeApply amount context = amount)
    ∧ volumeApply 150
        ⟨⟨"v3", "v3@example.com", false, none, 0⟩,
          [⟨"v", "Bulk", 10, 15, false, false⟩], 150⟩ = 285 / 2 := by
  have hmain : ∀ (a : ℚ) (ctx : PriceContext),
      volumeApply a ctx
        = a - ((distinctIds ctx.cartItems).map
            (specVolumeDiscountOfId ctx.cartItems)).sum := by
    intro a ctx
    have hdef : volumeApply a ctx
        = a - (distinctIds ctx.cartItems).foldl (fun td id =>
            match ctx.cartItems.find? (fun i => i.id == id) with
            | none => td
            | some item =>
                let quantity := summedQuantity ctx.cartItems id
                let applicableDiscount := getDiscountForQuantity quantity
                if applicableDiscount > 0 then
                  td + item.price * quantity * applicableDiscount
                else td) 0 := rfl
    rw [hdef, volumeFold_eq_sum ctx.cartItems (distinctIds ctx.cartItems) 0, zero_add]
  refine ⟨hmain amount context, ?_, ?_⟩
  · intro hlt
    rw [hmain amount context]
    have hzero : ((distinctIds context.cartItems).map
        (specVolumeDiscountOfId context.cartItems)).sum = 0 := by
      refine List.sum_eq_zero ?_
      intro x hx
      obtain ⟨id, _, rfl⟩ := List.mem_map.mp hx
      simp only [specVolumeDiscountOfId]
      cases hf : context.cartItems.find? (fun i => i.id == id) with
      | none => rfl
      | some item =>
          have h10 := hlt id
          have htier : specTier (summedQuantity context.cartItems id) = 0 := by
            simp only [specTier]
            split_ifs <;> first | rfl | linarith
          rw [htier]
          simp
    rw [hzero, sub_zero]
  · rw [hmain]
    norm_num [distinctIds, summedQuantity, specVolumeDiscountOfId, specTier,
      List.foldl, List.find?]

/-- C8: removing an absent node is a silent no-op for Cart.removeComponent
and for Bundle.remove: no error is possible and the component sequence and
all other state are exactly unchanged; removing a present node removes
exactly its first occurrence. -/
theorem claim_C8_remove (cart : Cart) (comps : CompList) (c : CartComponent) :
    (c ∉ cart.components → cart.removeComponent c = cart)
    ∧ (c ∈ cart.components →
        ∃ l1 l2, cart.components = l1 ++ c :: l2 ∧ c ∉ l1 ∧
          (cart.removeComponent c).components = l1 ++ l2 ∧
          (cart.removeComponent c).customer = cart.customer ∧
          (cart.removeComponent c).priceStrategies = cart.priceStrategies)
    ∧ (c ∉ comps.toList → comps.removeComp c = comps)
    ∧ (c ∈ comps.toList →
        ∃ l1 l2, comps.toList = l1 ++ c :: l2 ∧ c ∉ l1 ∧
          (comps.removeComp c).toList = l1 ++ l2) := by
  refine ⟨?_, ?_, ?_, ?_⟩
  · intro h
    simp [Cart.removeComponent, listIdxOf?_eq_none_of_not_mem h]
  · intro h
    obtain ⟨i, l1, l2, hidx, hl, hnot, hres⟩ := listIdxOf?_splice_of_mem h
    exact ⟨l1, l2, hl, hnot, by simp [Cart.removeComponent, hidx, hres],
      by simp [Cart.removeComponent, hidx], by simp [Cart.removeComponent, hidx]⟩
  · intro h
    simp [CompList.removeComp, CompList.idxOf?_eq_none_of_not_mem h]
  · intro h
    obtain ⟨i, l1, l2, hidx, hl, hnot, hres⟩ := CompList.idxOf?_splice_of_mem h
    exact ⟨l1, l2, hl, hnot, by simp [CompList.removeComp, hidx, hres]⟩

theorem claim_C8_witness :
    Cart.removeComponent
        { customer := ⟨"c8", "c8@example.com", false, none, 0⟩,
          components := [], priceStrategies := [] }
        (CartComponent.product ⟨"x8", "Xylo", 1, 1, false, false⟩)
      = { customer := ⟨"c8", "c8@example.com", false, none, 0⟩,
          components := [], priceStrategies := [] } :=
  (claim_C8_remove _ CompList.nil _).1 (by simp)

/-- C4 counterexample: a cart that is valid under the data model (bundle
discount 0.80001 over one item of price 10 and quantity 50, volume
discount registered) reaches the pre-rounding amount -0.005; the source's
final rounding returns 0, while rounding half away from zero on the cent
boundary would return -0.01, so the final amount is not rounded half away
from zero. -/
theorem claim_C4_counterexample :
    c4NegCart.priceStrategies.foldl
        (fun a s => s.apply ⟨1, 1⟩ a ⟨c4NegCart.customer, c4NegCart.getAllCartItems, a⟩)
        c4NegCart.getSubtotal = -(1 / 200)
    ∧ c4NegCart.calculateTotal ⟨1, 1⟩ = 0
    ∧ specRoundHalfAwayFromZero2 (-(1 / 200)) = -(1 / 100)
    ∧ c4NegCart.calculateTotal ⟨1, 1⟩ ≠ specRoundHalfAwayFromZero2 (-(1 / 200)) := by
  have hpipe : c4NegCart.priceStrategies.foldl
      (fun a s => s.apply ⟨1, 1⟩ a ⟨c4NegCart.customer, c4NegCart.getAllCartItems, a⟩)
      c4NegCart.getSubtotal = -(1 / 200) := by
    norm_num [c4NegCart, Cart.getSubtotal, Cart.getAllCartItems,
      CartComponent.getPrice, CompList.sumPrices, CartComponent.getAllItems,
      CompList.allItems, PriceStrategy.apply, volumeApply, distinctIds,
      summedQuantity, getDiscountForQuantity, discountTiers]
  have htotal : c4NegCart.calculateTotal ⟨1, 1⟩ = 0 := by
    norm_num [Cart.calculateTotal, c4NegCart, Cart.getSubtotal, Cart.getAllCartItems,
      CartComponent.getPrice, CompList.sumPrices, CartComponent.getAllItems,
      CompList.allItems, PriceStrategy.apply, volumeApply, distinctIds,
      summedQuantity, getDiscountForQuantity, discountTiers, roundTo2, mathRound]
  have hspec : specRoundHalfAwayFromZero2 (-(1 / 200)) = -(1 / 100) := by
    norm_num [specRoundHalfAwayFromZero2]
  refine ⟨hpipe, htotal, hspec, ?_⟩
  rw [htotal, hspec]
  norm_num

/-- C4 amended: the final amount returned by calculateTotal is rounded to
2 decimal places with JavaScript's round-half-up (ties toward positive
infinity) on the cent boundary; this coincides with
round-half-away-from-zero whenever the pre-rounding amount is
nonnegative, and in particular the reference example (new customer, one
non-sale item of price 100, NewCustomerDiscount then VAT) reaches the
pre-rounding amount 102.315 and rounds to 102.32. -/
theorem claim_C4_amended (x : ℚ) (hx : 0 ≤ x) :
    roundTo2 x = specRoundHalfAwayFromZero2 x
    ∧ c4ExampleCart.priceStrategies.foldl
        (fun a s => s.apply ⟨1, 1⟩ a
          ⟨c4ExampleCart.customer, c4ExampleCart.getAllCartItems, a⟩)
        c4ExampleCart.getSubtotal = 102315 / 1000
    ∧ c4ExampleCart.calculateTotal ⟨1, 1⟩ = 10232 / 100 := by
  refine ⟨?_, ?_, ?_⟩
  · simp [roundTo2, mathRound, specRoundHalfAwayFromZero2, hx]
  · norm_num [c4ExampleCart, Cart.getSubtotal, Cart.getAllCartItems,
      CartComponent.getPrice, CartComponent.getAllItems, CompList.allItems,
      PriceStrategy.apply, newCustomerApply, vatApply,
      newCustomerDiscountPercentage, newCustomerMaxDiscount, vatRate, min_def]
  · norm_num [Cart.calculateTotal, c4ExampleCart, Cart.getSubtotal,
      Cart.getAllCartItems, CartComponent.getPrice, CartComponent.getAllItems,
      CompList.allItems, PriceStrategy.apply, newCustomerApply, vatApply,
      newCustomerDiscountPercentage, newCustomerMaxDiscount, vatRate, min_def,
      roundTo2, mathRound]

theorem claim_C4_witness :
    roundTo2 1 = specRoundHalfAwayFromZero2 1 :=
  (claim_C4_amended 1 (by norm_num)).1

theorem claim_C3_witness :
    volumeApply 50
        ⟨⟨"v0", "v0@example.com", false, none, 0⟩,
          [⟨"w", "Few", 4, 3, false, false⟩], 50⟩ = 50 :=
  (claim_C3_volume 50
      ⟨⟨"v0", "v0@example.com", false, none, 0⟩,
        [⟨"w", "Few", 4, 3, false, false⟩], 50⟩).2.1
    (fun id => by norm_num [summedQuantity]; split_ifs <;> norm_num)
